import Mathlib

/-!
Shallow embedding of the Snoot Club server core (server/index.js, OTP variant):
member registry, OTP login, bearer sessions, meeting creation fan-out and the
24-hour reminder sweep.  Pure functions model the request handlers; the lowdb
document store is modelled by explicit `List Member` / `List Meeting` state
threaded through the operations, and `db.write()` corresponds to returning the
updated state.  Randomness (nanoid, makeToken, makeCode) and the clock
(Date.now) are passed in as explicit arguments.
-/

namespace SnootClub

/-- Member record, mirroring the objects stored in `db.data.members`
(id, phone, name, email, status, isAdmin, expoTokens, sessionTokens, createdAt). -/
structure Member where
  id : String
  phone : String
  name : String
  email : String
  status : String
  isAdmin : Bool
  expoTokens : List String
  sessionTokens : List String
  createdAt : Nat
deriving Repr, DecidableEq

/-- Meeting record, mirroring the objects stored in `db.data.meetings`.
`startsAt` is the epoch-millisecond value `new Date(meeting.startsAt).getTime()`
of the stored ISO timestamp (the model keeps the parsed number). -/
structure Meeting where
  id : String
  title : String
  description : String
  location : String
  startsAt : Nat
  reminderMinutes : Nat
  didNotify24h : Bool
deriving Repr, DecidableEq

/-- Payload of a verified JWT from the email/password add-on
(`jwt.verify` yields `{ sub, email }`). -/
structure JwtClaims where
  sub : String
  email : String
deriving Repr, DecidableEq

/-- Error outcomes of the handlers: 400 invalid input, 404 not registered,
403 carrying the member status (request-code), bare 403 (verify-code),
401 bad code, 401 missing/invalid session. -/
inductive ApiError where
  | invalidInput : String → ApiError
  | notRegistered : ApiError
  | notApproved : String → ApiError
  | forbidden : ApiError
  | badCredentials : ApiError
  | unauthorized : ApiError
deriving Repr, DecidableEq

instance {ε α : Type} [DecidableEq ε] [DecidableEq α] :
    DecidableEq (Except ε α) := fun a b =>
  match a, b with
  | .ok x, .ok y =>
    if h : x = y then .isTrue (by rw [h])
    else .isFalse (by intro hh; cases hh; exact h rfl)
  | .error x, .error y =>
    if h : x = y then .isTrue (by rw [h])
    else .isFalse (by intro hh; cases hh; exact h rfl)
  | .ok _, .error _ => .isFalse (by intro hh; cases hh)
  | .error _, .ok _ => .isFalse (by intro hh; cases hh)

/-- The digits of a phone string: JS `(phone || '').replace(/\D/g, '')`. -/
def digitsOf (phone : String) : String :=
  String.mk (phone.data.filter Char.isDigit)

/-- JS `s.startsWith(c)` for a one-character prefix `c`: the first character
of `s` is `c`. -/
def headIs (s : String) (c : Char) : Bool :=
  match s.data with
  | [] => false
  | d :: _ => d = c

/-- `normalizeUS` from index.js: coerce to `+1XXXXXXXXXX` when the digit
sequence is 10 digits (or 11 starting with 1); otherwise keep a leading-`+`
input verbatim, or prepend `+` to the bare digits. -/
def normalizeUS (phone : String) : String :=
  let digits := digitsOf phone
  if digits = "" then ""
  else if digits.length = 10 then "+1" ++ digits
  else if digits.length = 11 ∧ headIs digits '1' then "+" ++ digits
  else if headIs phone '+' then phone
  else "+" ++ digits

/-- `byStatus` helper: `db.data.members.filter(m => m.status === status)`. -/
def byStatus (members : List Member) (status : String) : List Member :=
  members.filter (fun m => m.status == status)

/-- One OTP entry: `{ code, expMs }` in the in-memory `otpStore`. -/
structure OtpEntry where
  code : String
  expMs : Nat
deriving Repr, DecidableEq

/-- The in-memory OTP store, a map from normalized phone to entry,
modelled as an association list. -/
abbrev OtpStore := List (String × OtpEntry)

/-- `otpStore.get(phone)`. -/
def otpGet (s : OtpStore) (phone : String) : Option OtpEntry :=
  (s.find? (fun p => p.1 == phone)).map Prod.snd

/-- `otpStore.set(phone, v)`: replaces any prior entry for the phone. -/
def otpSet (s : OtpStore) (phone : String) (e : OtpEntry) : OtpStore :=
  (phone, e) :: s.filter (fun p => p.1 != phone)

/-- `otpStore.delete(phone)`. -/
def otpDelete (s : OtpStore) (phone : String) : OtpStore :=
  s.filter (fun p => p.1 != phone)

/-- `setOtp(phone)` from index.js: store `{ code, expMs: now + 10 * 60 * 1000 }`.
The freshly generated 6-digit code is an explicit argument. -/
def setOtp (s : OtpStore) (phone code : String) (now : Nat) : OtpStore :=
  otpSet s phone { code := code, expMs := now + 10 * 60 * 1000 }

/-- `checkOtp(phone, code)` from index.js: look up the entry; succeed iff the
code matches and `now < expMs`; delete the entry on success.  Returns the
verdict together with the store after the call. -/
def checkOtp (s : OtpStore) (phone code : String) (now : Nat) : Bool × OtpStore :=
  match otpGet s phone with
  | none => (false, s)
  | some v =>
    if v.code = code ∧ now < v.expMs then (true, otpDelete s phone)
    else (false, s)

/-- Number of dot characters in a token.  JS `token.split('.').length !== 3`
is equivalent to the dot count differing from 2. -/
def dotCount (token : String) : Nat :=
  (token.data.filter (fun c => c = '.')).length

/-- `decodeJwtIfPresent(token)` from index.js: null unless the token is empty
or has exactly three dot-separated parts; otherwise `jwt.verify(token,
JWT_SECRET)` (abstracted as the `verify` argument, with a thrown verification
error modelled as `none`). -/
def decodeJwtIfPresent (verify : String → Option JwtClaims) (token : String) :
    Option JwtClaims :=
  if token = "" then none
  else if dotCount token ≠ 2 then none
  else verify token

/-- The JWT fallback inside `memberByToken`: find the member matching the
decoded claims by id or email and require `status === 'approved'`. -/
def jwtMemberLookup (verify : String → Option JwtClaims) (members : List Member)
    (token : String) : Option Member :=
  match decodeJwtIfPresent verify token with
  | none => none
  | some dec =>
    match members.find? (fun x => x.id == dec.sub || x.email == dec.email) with
    | none => none
    | some m2 => if m2.status = "approved" then some m2 else none

/-- `memberByToken(token)` from index.js: first the OTP-session path (member
whose `sessionTokens` includes the token, returned only when approved), then
the JWT add-on fallback. -/
def memberByToken (verify : String → Option JwtClaims) (members : List Member)
    (token : String) : Option Member :=
  match members.find? (fun m => m.sessionTokens.contains token) with
  | some m1 =>
    if m1.status = "approved" then some m1 else jwtMemberLookup verify members token
  | none => jwtMemberLookup verify members token

/-- In-place mutation of the first list element satisfying `p` (JS `find`
returns a live reference into the array; handlers mutate it and `db.write()`
persists the array). -/
def updateFirst (l : List Member) (p : Member → Bool) (f : Member → Member) :
    List Member :=
  match l with
  | [] => []
  | m :: rest => if p m then f m :: rest else m :: updateFirst rest p f

/-- JS `if (name && !m.name) m.name = name`: fill a field only when the new
value is truthy (non-empty) and the old value is falsy (empty). -/
def mergeOpt (old : String) (v : Option String) : String :=
  match v with
  | some s => if s ≠ "" ∧ old = "" then s else old
  | none => old

/-- JS `if (expoToken && !m.expoTokens.includes(expoToken))
m.expoTokens.push(expoToken)`. -/
def appendExpo (tokens : List String) (v : Option String) : List String :=
  match v with
  | some t => if t ≠ "" ∧ ¬ tokens.contains t then tokens ++ [t] else tokens
  | none => tokens

/-- `POST /register`: normalize the phone (400 when empty); find the member by
normalized phone; create a pending member when absent, otherwise merge
name/email into empty fields; append the expo token when new; persist.
Returns the updated members together with the response `status` and
`memberId`.  `newId` stands for `nanoid()` and `now` for `Date.now()`. -/
def register (members : List Member) (phone : String)
    (name email expoToken : Option String) (newId : String) (now : Nat) :
    Except ApiError (List Member × String × String) :=
  let norm := normalizeUS phone
  if norm = "" then .error (.invalidInput ("phone required"))
  else
    match members.find? (fun x => x.phone == norm) with
    | none =>
      let m : Member :=
        { id := newId, phone := norm, name := name.getD (""), email := email.getD (""),
          status := "pending", isAdmin := false,
          expoTokens := appendExpo [] expoToken, sessionTokens := [],
          createdAt := now }
      .ok (members ++ [m], m.status, m.id)
    | some m0 =>
      let members2 := updateFirst members (fun x => x.phone == norm)
        (fun x =>
          { x with
            name := mergeOpt x.name name,
            email := mergeOpt x.email email,
            expoTokens := appendExpo x.expoTokens expoToken })
      .ok (members2, m0.status, m0.id)

/-- Success payload of `POST /auth/request-code`: `{ sent }`, plus the
`demoCode` fallback field when the SMS channel is unavailable or failed. -/
structure RequestCodeOk where
  sent : Bool
  demoCode : Option String
deriving Repr, DecidableEq

/-- `POST /auth/request-code`: 400 on empty normalization, 404 when the phone
is unknown, 403 carrying `m.status` when not approved; otherwise store the
OTP and attempt SMS delivery.  `smsConfigured` stands for
`twilioClient && TWILIO_FROM`, `smsSendOk` for the Twilio call not throwing,
and `genCode` for `makeCode()`. -/
def requestCode (members : List Member) (otp : OtpStore) (phone : String)
    (now : Nat) (genCode : String) (smsConfigured smsSendOk : Bool) :
    Except ApiError (RequestCodeOk × OtpStore) :=
  let norm := normalizeUS phone
  if norm = "" then .error (.invalidInput ("phone required"))
  else
    match members.find? (fun x => x.phone == norm) with
    | none => .error .notRegistered
    | some m =>
      if m.status ≠ "approved" then .error (.notApproved m.status)
      else
        let otp2 := setOtp otp norm genCode now
        if smsConfigured && smsSendOk then .ok ({ sent := true, demoCode := none }, otp2)
        else .ok ({ sent := false, demoCode := some genCode }, otp2)

/-- The public member projection returned by `POST /auth/verify-code`:
`{ id, name, email, phone }` only — no token sets. -/
structure MemberProjection where
  id : String
  name : String
  email : String
  phone : String
deriving Repr, DecidableEq

/-- Projection of a member record to its verify-code response shape. -/
def memberProjection (m : Member) : MemberProjection :=
  { id := m.id, name := m.name, email := m.email, phone := m.phone }

/-- Success payload of `POST /auth/verify-code`. -/
structure VerifyOk where
  token : String
  member : MemberProjection
deriving Repr, DecidableEq

/-- `POST /auth/verify-code`: 400 on missing phone/code, 403 unless the member
exists and is approved, 401 `bad code` unless `checkOtp` succeeds; on success
mint `newToken` (`makeToken()`), append it to `sessionTokens`, append the expo
token when new, persist, and respond with the token and the public member
projection. -/
def verifyCode (members : List Member) (otp : OtpStore) (phone code : String)
    (now : Nat) (newToken : String) (expoToken : Option String) :
    Except ApiError (VerifyOk × List Member × OtpStore) :=
  let norm := normalizeUS phone
  if norm = "" ∨ code = "" then .error (.invalidInput ("phone & code required"))
  else
    match members.find? (fun x => x.phone == norm) with
    | none => .error .forbidden
    | some m =>
      if m.status ≠ "approved" then .error .forbidden
      else
        match checkOtp otp norm code now with
        | (false, _) => .error .badCredentials
        | (true, otp2) =>
          let members2 := updateFirst members (fun x => x.phone == norm)
            (fun x =>
              { x with
                sessionTokens := x.sessionTokens ++ [newToken],
                expoTokens := appendExpo x.expoTokens expoToken })
          .ok ({ token := newToken, member := memberProjection m }, members2, otp2)

/-- `POST /auth/logout` (behind `requireAuth`): 401 when the bearer token is
missing or resolves to no approved member; otherwise remove the token from the
resolved member's `sessionTokens` and persist. -/
def logout (verify : String → Option JwtClaims) (members : List Member)
    (token : String) : Except ApiError (List Member) :=
  if token = "" then .error .unauthorized
  else
    match memberByToken verify members token with
    | none => .error .unauthorized
    | some m =>
      .ok (updateFirst members (fun x => x.id == m.id)
        (fun x => { x with sessionTokens := x.sessionTokens.filter (fun t => t != token) }))

/-- `POST /members/:id/approve` and `/reject`: 404 when the id is unknown,
otherwise set the member's status and persist. -/
def setStatus (members : List Member) (memberId status : String) :
    Option (List Member) :=
  match members.find? (fun x => x.id == memberId) with
  | none => none
  | some _ =>
    some (updateFirst members (fun x => x.id == memberId)
      (fun x => { x with status := status }))

/-- `GET /members` (admin): the stored member records, optionally filtered by
status — returned verbatim, with every field. -/
def listMembers (members : List Member) (status : Option String) : List Member :=
  match status with
  | some s => byStatus members s
  | none => members

/-- Environment of the notification fan-out: SMS channel configuration
(`twilioClient && TWILIO_FROM`), the per-recipient SMS send (a thrown Twilio
error is `Except.error`), the Expo token validity test, the provider chunking,
and the per-chunk push send.  Push messages are identified by their `to`
token (title/body are fixed templates). -/
structure FanoutEnv where
  smsConfigured : Bool
  smsSend : String → Except String Unit
  isExpoPushToken : String → Bool
  chunkPush : List String → List (List String)
  sendPushChunk : List String → Except String Unit

/-- Outcome of a sequential SMS fan-out loop: the recipients attempted, in
order, and how many sends succeeded. -/
structure SmsOutcome where
  attempted : List String
  succeeded : Nat
deriving Repr, DecidableEq

/-- The SMS fan-out loop `for (const mem of approved) { try { await send }
catch (e) { console.error } }`: every recipient is attempted and a failed send
is logged and swallowed. -/
def smsFanout (send : String → Except String Unit) :
    List String → SmsOutcome
  | [] => { attempted := [], succeeded := 0 }
  | r :: rest =>
    let tail := smsFanout send rest
    match send r with
    | .ok _ => { attempted := r :: tail.attempted, succeeded := tail.succeeded + 1 }
    | .error _ => { attempted := r :: tail.attempted, succeeded := tail.succeeded }

/-- The push message list: all approved members' expo tokens, flattened, with
syntactically invalid tokens filtered out. -/
def pushMessagesFor (env : FanoutEnv) (approved : List Member) : List String :=
  (approved.flatMap (fun mem => mem.expoTokens)).filter env.isExpoPushToken

/-- The chunk-by-chunk push loop, counting `chunk.length` per successful chunk
(a failed chunk is logged and swallowed). -/
def pushChunkLoop (env : FanoutEnv) : List (List String) → Nat
  | [] => 0
  | c :: rest =>
    match env.sendPushChunk c with
    | .ok _ => c.length + pushChunkLoop env rest
    | .error _ => pushChunkLoop env rest

/-- Full push fan-out for one announcement. -/
def pushFanout (env : FanoutEnv) (approved : List Member) : Nat :=
  pushChunkLoop env (env.chunkPush (pushMessagesFor env approved))

/-- JS `m.reminderMinutes || 60`: `0` is falsy and also falls back. -/
def orDefaultNat (v : Option Nat) (d : Nat) : Nat :=
  match v with
  | some n => if n = 0 then d else n
  | none => d

/-- Request body of `POST /meetings`. -/
structure CreateMeetingReq where
  title : String
  description : Option String
  location : Option String
  startsAt : Nat
  reminderMinutes : Option Nat
  sendSms : Option Bool
  sendPush : Option Bool

/-- Result of `POST /meetings`: the persisted meetings, the response meeting,
and the fan-out outcome. -/
structure CreateResult where
  meetings : List Meeting
  meeting : Meeting
  smsAttempted : List String
  pushCount : Nat

/-- `POST /meetings` (admin): build the meeting with defaults and
`didNotify24h = false`, persist it, then best-effort SMS and push fan-out to
the approved members; always responds with the meeting. -/
def createMeeting (env : FanoutEnv) (members : List Member)
    (meetings : List Meeting) (req : CreateMeetingReq) (newId : String) :
    CreateResult :=
  let meeting : Meeting :=
    { id := newId, title := req.title, description := req.description.getD (""),
      location := req.location.getD (""), startsAt := req.startsAt,
      reminderMinutes := orDefaultNat req.reminderMinutes 60,
      didNotify24h := false }
  let meetings2 := meetings ++ [meeting]
  let approved := byStatus members ("approved")
  let sms :=
    if req.sendSms.getD true && env.smsConfigured then
      smsFanout env.smsSend (approved.map (fun mem => mem.phone))
    else { attempted := [], succeeded := 0 }
  let pushCount := if req.sendPush.getD true then pushFanout env approved else 0
  { meetings := meetings2, meeting := meeting,
    smsAttempted := sms.attempted, pushCount := pushCount }

/-- `windowStart = now + (24*60 - 10)*60*1000` of the reminder sweep. -/
def reminderWindowStart (now : Nat) : Nat := now + (24 * 60 - 10) * 60 * 1000

/-- `windowEnd = now + (24*60 + 10)*60*1000` of the reminder sweep. -/
def reminderWindowEnd (now : Nat) : Nat := now + (24 * 60 + 10) * 60 * 1000

/-- The `due` filter of `POST /tasks/notify-24h`: not yet notified and
`windowStart <= startsAt < windowEnd`. -/
def isDue (now : Nat) (meet : Meeting) : Bool :=
  if meet.didNotify24h then false
  else decide (reminderWindowStart now ≤ meet.startsAt ∧
    meet.startsAt < reminderWindowEnd now)

/-- Response of `POST /tasks/notify-24h`, together with the meetings state
persisted by the final `db.write()`. -/
structure SweepResult where
  meetings : List Meeting
  meetingsNotified : List String
  smsCount : Nat
  pushCount : Nat

/-- The per-due-meeting body of the sweep loop: one SMS fan-out over the
approved members (when the channel is configured) and one chunked push
fan-out, accumulating the success counters. -/
def sweepCounts (env : FanoutEnv) (approved : List Member) :
    List Meeting → Nat × Nat
  | [] => (0, 0)
  | _meeting :: rest =>
    let smsHere :=
      if env.smsConfigured then
        (smsFanout env.smsSend (approved.map (fun mem => mem.phone))).succeeded
      else 0
    let pushHere := pushFanout env approved
    let tail := sweepCounts env approved rest
    (smsHere + tail.1, pushHere + tail.2)

/-- `POST /tasks/notify-24h` (after the cron-secret check): re-read the store,
select the due meetings, broadcast for each and set its `didNotify24h` flag in
place, then persist before responding.  The in-place flag mutation of the due
array elements is modelled by mapping the flag update over the meetings
list. -/
def sweep (env : FanoutEnv) (members : List Member) (meetings : List Meeting)
    (now : Nat) : SweepResult :=
  let due := meetings.filter (isDue now)
  let approved := byStatus members ("approved")
  let counts := sweepCounts env approved due
  { meetings := meetings.map (fun meet =>
      if isDue now meet then { meet with didNotify24h := true } else meet),
    meetingsNotified := due.map (fun d => d.id),
    smsCount := counts.1, pushCount := counts.2 }

/-! Helper lemmas about the list-level modelling combinators. -/

theorem updateFirst_length (l : List Member) (p : Member → Bool)
    (f : Member → Member) : (updateFirst l p f).length = l.length := by
  induction l with
  | nil => rfl
  | cons m rest ih => cases hp : p m <;> simp [updateFirst, hp, ih]

theorem mem_updateFirst {l : List Member} {p : Member → Bool}
    {f : Member → Member} {x : Member} (hx : x ∈ updateFirst l p f) :
    x ∈ l ∨ ∃ y, y ∈ l ∧ p y = true ∧ x = f y := by
  induction l with
  | nil => simp [updateFirst] at hx
  | cons m rest ih =>
    cases hp : p m with
    | true =>
      rw [updateFirst, if_pos hp] at hx
      rcases List.mem_cons.mp hx with h | h
      · exact Or.inr ⟨m, List.mem_cons_self m rest, hp, h⟩
      · exact Or.inl (List.mem_cons_of_mem m h)
    | false =>
      rw [updateFirst, if_neg (by simp [hp])] at hx
      rcases List.mem_cons.mp hx with h | h
      · exact Or.inl (h ▸ List.mem_cons_self m rest)
      · rcases ih h with h2 | ⟨y, hy, hpy, hxy⟩
        · exact Or.inl (List.mem_cons_of_mem m h2)
        · exact Or.inr ⟨y, List.mem_cons_of_mem m hy, hpy, hxy⟩

theorem find?_updateFirst (l : List Member) (p : Member → Bool)
    (f : Member → Member) (hf : ∀ x, p x = true → p (f x) = true) :
    (updateFirst l p f).find? p = (l.find? p).map f := by
  induction l with
  | nil => rfl
  | cons m rest ih =>
    cases hp : p m with
    | true =>
      rw [updateFirst, if_pos hp]
      simp [List.find?_cons, hp, hf m hp]
    | false =>
      rw [updateFirst, if_neg (by simp [hp])]
      simp [List.find?_cons, hp, ih]

theorem smsFanout_attempted (send : String → Except String Unit)
    (l : List String) : (smsFanout send l).attempted = l := by
  induction l with
  | nil => rfl
  | cons r rest ih => cases send r <;> simp [smsFanout, ih] <;> split <;> simp [ih]

theorem sweepCounts_eq (env : FanoutEnv) (approved : List Member)
    (l : List Meeting) :
    sweepCounts env approved l =
      (l.length *
        (if env.smsConfigured then
          (smsFanout env.smsSend (approved.map (fun mem => mem.phone))).succeeded
        else 0),
       l.length * pushFanout env approved) := by
  induction l with
  | nil => simp [sweepCounts]
  | cons m rest ih =>
    cases hc : env.smsConfigured <;>
      simp [sweepCounts, ih, hc, Nat.succ_mul, Nat.add_comm]

theorem isDue_eq_window (now : Nat) (meet : Meeting) :
    isDue now meet =
      (!meet.didNotify24h &&
        decide (now + 24 * 60 * 60 * 1000 - 10 * 60 * 1000 ≤ meet.startsAt ∧
          meet.startsAt < now + 24 * 60 * 60 * 1000 + 10 * 60 * 1000)) := by
  unfold isDue reminderWindowStart reminderWindowEnd
  cases h : meet.didNotify24h with
  | true => simp [h]
  | false =>
    simp only [h, Bool.not_false, Bool.true_and]
    rw [if_neg (by simp), decide_eq_decide]
    constructor <;> intro hw <;> exact ⟨by omega, by omega⟩

theorem isDue_flag_clears (now : Nat) (meet : Meeting) :
    isDue now (if isDue now meet then { meet with didNotify24h := true } else meet)
      = false := by
  cases h : isDue now meet with
  | true => simp [isDue]
  | false => simpa using h

/-- C1: the reminder sweep selects exactly the meetings whose `startsAt` lies
in `[now + 24h − 10m, now + 24h + 10m)` and whose `didNotify24h` is false,
runs the broadcast once per selected meeting, persists the state with
`didNotify24h = true` for each of them before returning, and consequently a
second `sweep` at the same `now` (under any environment and member set)
re-selects none of them. -/
theorem sweep_at_most_once (env env2 : FanoutEnv) (members members2 : List Member)
    (meetings : List Meeting) (now : Nat) :
    (sweep env members meetings now).meetingsNotified =
      ((meetings.filter (fun meet =>
        !meet.didNotify24h &&
          decide (now + 24 * 60 * 60 * 1000 - 10 * 60 * 1000 ≤ meet.startsAt ∧
            meet.startsAt < now + 24 * 60 * 60 * 1000 + 10 * 60 * 1000))).map
        (fun meet => meet.id)) ∧
    (sweep env members meetings now).meetings =
      meetings.map (fun meet =>
        if isDue now meet then { meet with didNotify24h := true } else meet) ∧
    (sweep env members meetings now).smsCount =
      (meetings.filter (isDue now)).length *
        (if env.smsConfigured then
          (smsFanout env.smsSend
            ((byStatus members ("approved")).map (fun mem => mem.phone))).succeeded
        else 0) ∧
    (sweep env members meetings now).meetings.filter (isDue now) = [] ∧
    (sweep env2 members2 (sweep env members meetings now).meetings now).meetingsNotified
      = [] := by
  have hfilter : meetings.filter (isDue now) =
      meetings.filter (fun meet =>
        !meet.didNotify24h &&
          decide (now + 24 * 60 * 60 * 1000 - 10 * 60 * 1000 ≤ meet.startsAt ∧
            meet.startsAt < now + 24 * 60 * 60 * 1000 + 10 * 60 * 1000)) :=
    List.filter_congr (fun meet _ => isDue_eq_window now meet)
  have hclear : (sweep env members meetings now).meetings.filter (isDue now) = [] := by
    show (meetings.map (fun meet =>
      if isDue now meet then { meet with didNotify24h := true } else meet)).filter
        (isDue now) = []
    rw [List.filter_eq_nil_iff]
    intro a ha
    rcases List.mem_map.mp ha with ⟨meet, _, rfl⟩
    simp [isDue_flag_clears]
  refine ⟨?_, rfl, ?_, hclear, ?_⟩
  · show (meetings.filter (isDue now)).map (fun d => d.id) = _
    rw [hfilter]
  · show (sweepCounts env (byStatus members ("approved"))
      (meetings.filter (isDue now))).1 = _
    rw [sweepCounts_eq]
  · show ((sweep env members meetings now).meetings.filter (isDue now)).map
      (fun d => d.id) = []
    rw [hclear]
    rfl

/-- C7: a failed per-recipient SMS send is swallowed — the fan-out loop
attempts every recipient in order whatever the outcomes are — and both
meeting creation and the reminder sweep produce the same persisted state and
response whatever the SMS and push delivery outcomes, including when every
delivery fails. -/
theorem broadcast_isolation (env : FanoutEnv)
    (s1 s2 : String → Except String Unit)
    (c1 c2 : List String → Except String Unit)
    (recipients : List String) (members : List Member) (meetings : List Meeting)
    (req : CreateMeetingReq) (newId : String) (now : Nat) :
    (smsFanout s1 recipients).attempted = recipients ∧
    (createMeeting { env with smsSend := s1, sendPushChunk := c1 }
        members meetings req newId).meeting =
      (createMeeting { env with smsSend := s2, sendPushChunk := c2 }
        members meetings req newId).meeting ∧
    (createMeeting { env with smsSend := s1, sendPushChunk := c1 }
        members meetings req newId).meetings =
      meetings ++ [(createMeeting { env with smsSend := s2, sendPushChunk := c2 }
        members meetings req newId).meeting] ∧
    (createMeeting { env with smsSend := s1, sendPushChunk := c1 }
        members meetings req newId).smsAttempted =
      (createMeeting { env with smsSend := s2, sendPushChunk := c2 }
        members meetings req newId).smsAttempted ∧
    (sweep { env with smsSend := s1, sendPushChunk := c1 }
        members meetings now).meetings =
      (sweep { env with smsSend := s2, sendPushChunk := c2 }
        members meetings now).meetings ∧
    (sweep { env with smsSend := s1, sendPushChunk := c1 }
        members meetings now).meetingsNotified =
      (sweep { env with smsSend := s2, sendPushChunk := c2 }
        members meetings now).meetingsNotified := by
  refine ⟨smsFanout_attempted s1 recipients, rfl, rfl, ?_, rfl, rfl⟩
  show (if req.sendSms.getD true && env.smsConfigured then
      smsFanout s1 ((byStatus members ("approved")).map (fun mem => mem.phone))
    else { attempted := [], succeeded := 0 }).attempted =
    (if req.sendSms.getD true && env.smsConfigured then
      smsFanout s2 ((byStatus members ("approved")).map (fun mem => mem.phone))
    else { attempted := [], succeeded := 0 }).attempted
  split <;> simp [smsFanout_attempted]

/-- C10: the admin member listing returns the stored member records verbatim —
with and without a status filter the response elements are the stored records
themselves, including each member's full `sessionTokens` and `expoTokens`
arrays, while the verify-code member projection carries only id, name, email
and phone. -/
theorem listMembers_full_records (members : List Member) (st : String) :
    listMembers members none = members ∧
    listMembers members (some st) =
      members.filter (fun m => m.status == st) ∧
    (listMembers members none).map Member.sessionTokens =
      members.map Member.sessionTokens ∧
    (listMembers members (some st)).map Member.sessionTokens =
      (members.filter (fun m => m.status == st)).map Member.sessionTokens ∧
    (∀ m : Member, memberProjection m =
      { id := m.id, name := m.name, email := m.email, phone := m.phone }) :=
  ⟨rfl, rfl, rfl, rfl, fun _ => rfl⟩

/-! Sample fixtures used to instantiate hypotheses at concrete states. -/

/-- A JWT verifier that accepts nothing (no add-on token in circulation). -/
def vNone : String → Option JwtClaims := fun _ => none

/-- An approved member holding the session token `t1`. -/
def mApproved : Member :=
  { id := "m1", phone := "+15551234567", name := "Ann", email := "",
    status := "approved", isAdmin := false, expoTokens := [],
    sessionTokens := ["t1"], createdAt := 0 }

/-- The member record created by a first register of `5551234567`. -/
def mAnn : Member :=
  { id := "idA", phone := "+15551234567", name := "Ann", email := "",
    status := "pending", isAdmin := false, expoTokens := [],
    sessionTokens := [], createdAt := 0 }

/-- A freshly registered, still pending member. -/
def mPending : Member :=
  { id := "m2", phone := "+15551234568", name := "", email := "",
    status := "pending", isAdmin := false, expoTokens := [],
    sessionTokens := [], createdAt := 0 }

/-! Further helper lemmas. -/

theorem headIs_ne_empty {s : String} {c : Char} (h : headIs s c = true) :
    s ≠ "" := by
  intro he
  rw [he] at h
  rw [show headIs ("") c = false from rfl] at h
  exact Bool.noConfusion h

theorem normalizeUS_passthrough (s : String)
    (hp : headIs s '+' = true) (hd : digitsOf s ≠ "")
    (ha : (digitsOf s).length ≠ 10)
    (hb : ¬ ((digitsOf s).length = 11 ∧ headIs (digitsOf s) '1' = true)) :
    normalizeUS s = s := by
  simp only [normalizeUS]
  rw [if_neg hd, if_neg ha, if_neg hb, if_pos hp]

theorem otpGet_setOtp_self (s : OtpStore) (ph c : String) (now : Nat) :
    otpGet (setOtp s ph c now) ph =
      some { code := c, expMs := now + 10 * 60 * 1000 } := by
  simp [otpGet, setOtp, otpSet, List.find?_cons]

theorem otpGet_otpDelete_self (s : OtpStore) (ph : String) :
    otpGet (otpDelete s ph) ph = none := by
  have : List.find? (fun p => p.1 == ph) (s.filter (fun p => p.1 != ph)) = none := by
    rw [List.find?_eq_none]
    intro x hx
    have hxf := (List.mem_filter.mp hx).2
    simp only [bne_iff_ne, ne_eq] at hxf
    simp [hxf]
  simp [otpGet, otpDelete, this]

/-- C9 counterexample: the input `"+"` begins with `+` and its digit sequence
(empty) is neither 10 digits nor 11 digits starting with 1, yet `normalizeUS`
maps it to the empty string rather than returning it unchanged. -/
theorem normalizeUS_plus_cex :
    headIs ("+") '+' = true ∧
    digitsOf ("+") = "" ∧
    ¬ (digitsOf ("+")).length = 10 ∧
    ¬ ((digitsOf ("+")).length = 11 ∧ headIs (digitsOf ("+")) '1' = true) ∧
    normalizeUS ("+") = "" ∧
    normalizeUS ("+") ≠ ("+") := by
  decide

/-- C9 (amended): an input that begins with `+`, contains at least one digit,
and whose digit sequence is neither exactly 10 digits nor 11 digits starting
with 1 passes through `normalizeUS` unchanged, spaces and punctuation
included; consequently `register` keys members by the raw string, and two
different textual renderings of the same non-US number create two distinct
member records with distinct phone keys.  (Without the at-least-one-digit
proviso the claim fails: a digit-free input such as `"+"` normalizes to the
empty string.) -/
theorem normalizeUS_foreign_passthrough
    (s1 s2 : String) (members : List Member)
    (n1 e1 t1 n2 e2 t2 : Option String) (id1 id2 : String) (ts1 ts2 : Nat)
    (h1p : headIs s1 '+' = true) (h1d : digitsOf s1 ≠ "")
    (h1a : (digitsOf s1).length ≠ 10)
    (h1b : ¬ ((digitsOf s1).length = 11 ∧ headIs (digitsOf s1) '1' = true))
    (h2p : headIs s2 '+' = true) (h2d : digitsOf s2 ≠ "")
    (h2a : (digitsOf s2).length ≠ 10)
    (h2b : ¬ ((digitsOf s2).length = 11 ∧ headIs (digitsOf s2) '1' = true))
    (hne : s1 ≠ s2)
    (hm1 : ∀ x ∈ members, x.phone ≠ s1) (hm2 : ∀ x ∈ members, x.phone ≠ s2) :
    normalizeUS s1 = s1 ∧ normalizeUS s2 = s2 ∧
    ∃ m1 m2 st1 mid1 st2 mid2,
      register members s1 n1 e1 t1 id1 ts1 = .ok (members ++ [m1], st1, mid1) ∧
      register (members ++ [m1]) s2 n2 e2 t2 id2 ts2 =
        .ok (members ++ [m1] ++ [m2], st2, mid2) ∧
      m1.phone = s1 ∧ m2.phone = s2 ∧ m1.phone ≠ m2.phone ∧
      (members ++ [m1] ++ [m2]).length = members.length + 2 := by
  have hn1 : normalizeUS s1 = s1 := normalizeUS_passthrough s1 h1p h1d h1a h1b
  have hn2 : normalizeUS s2 = s2 := normalizeUS_passthrough s2 h2p h2d h2a h2b
  have hs1 : s1 ≠ "" := headIs_ne_empty h1p
  have hs2 : s2 ≠ "" := headIs_ne_empty h2p
  refine ⟨hn1, hn2, ?_⟩
  have hfind1 : members.find? (fun x => x.phone == s1) = none := by
    rw [List.find?_eq_none]
    intro x hx
    simpa using hm1 x hx
  refine ⟨({ id := id1, phone := s1, name := n1.getD (""),
             email := e1.getD (""), status := "pending", isAdmin := false,
             expoTokens := appendExpo [] t1, sessionTokens := [],
             createdAt := ts1 } : Member),
          ({ id := id2, phone := s2, name := n2.getD (""),
             email := e2.getD (""), status := "pending", isAdmin := false,
             expoTokens := appendExpo [] t2, sessionTokens := [],
             createdAt := ts2 } : Member),
          "pending", id1, "pending", id2, ?_, ?_, rfl, rfl, hne, by simp⟩
  · simp only [register, hn1]
    rw [if_neg hs1, hfind1]
  · have hfind2 : (members ++
        [({ id := id1, phone := s1, name := n1.getD (""),
            email := e1.getD (""), status := "pending", isAdmin := false,
            expoTokens := appendExpo [] t1, sessionTokens := [],
            createdAt := ts1 } : Member)]).find?
        (fun x => x.phone == s2) = none := by
      rw [List.find?_eq_none]
      intro x hx
      rcases List.mem_append.mp hx with hx1 | hx2
      · simpa using hm2 x hx1
      · rcases List.mem_singleton.mp hx2 with rfl
        simpa using hne
    simp only [register, hn2]
    rw [if_neg hs2, hfind2]

/-- C9 witness: two renderings of the same UK number. -/
theorem normalizeUS_foreign_passthrough_witness :
    normalizeUS ("+44 20 7946 0958") = ("+44 20 7946 0958") ∧
    normalizeUS ("+442079460958") = ("+442079460958") ∧
    ∃ m1 m2 st1 mid1 st2 mid2,
      register [] ("+44 20 7946 0958") none none none ("idA") 0 =
        .ok ([] ++ [m1], st1, mid1) ∧
      register ([] ++ [m1]) ("+442079460958") none none none ("idB") 0 =
        .ok ([] ++ [m1] ++ [m2], st2, mid2) ∧
      m1.phone = ("+44 20 7946 0958") ∧ m2.phone = ("+442079460958") ∧
      m1.phone ≠ m2.phone ∧
      ([] ++ [m1] ++ [m2]).length = List.length ([] : List Member) + 2 :=
  normalizeUS_foreign_passthrough ("+44 20 7946 0958") ("+442079460958") []
    none none none none none none ("idA") ("idB") 0 0
    (by decide) (by decide) (by decide) (by decide)
    (by decide) (by decide) (by decide) (by decide)
    (by decide) (by simp) (by simp)

/-- C4 counterexample: an input with no digits normalizes to the empty string
and request-code then fails with 400 InvalidInput, not 404 NotRegistered,
even though no member carries that normalized phone. -/
theorem requestCode_empty_norm_cex :
    normalizeUS ("abc") = "" ∧
    ([] : List Member).find? (fun x => x.phone == normalizeUS ("abc")) = none ∧
    requestCode [] [] ("abc") 0 ("123456") true true =
      .error (.invalidInput ("phone required")) ∧
    requestCode [] [] ("abc") 0 ("123456") true true ≠
      .error .notRegistered := by
  decide

/-- C4 (amended): for every phone input whose normalization is non-empty,
request-code fails with NotRegistered when no member has the normalized
phone, fails with NotApproved carrying the member's current status when the
member is not approved, and on success with the SMS channel unconfigured or
its send failing still returns the generated code with sent = false.  (An
input whose normalization is empty instead fails with InvalidInput before the
member lookup.) -/
theorem requestCode_errors_and_fallback
    (members : List Member) (otp : OtpStore) (phone : String) (now : Nat)
    (genCode : String) (cfg sok : Bool)
    (hnorm : normalizeUS phone ≠ "") :
    (members.find? (fun x => x.phone == normalizeUS phone) = none →
      requestCode members otp phone now genCode cfg sok =
        .error .notRegistered) ∧
    (∀ m, members.find? (fun x => x.phone == normalizeUS phone) = some m →
      m.status ≠ "approved" →
      requestCode members otp phone now genCode cfg sok =
        .error (.notApproved m.status)) ∧
    (∀ m, members.find? (fun x => x.phone == normalizeUS phone) = some m →
      m.status = "approved" → (cfg = false ∨ sok = false) →
      requestCode members otp phone now genCode cfg sok =
        .ok ({ sent := false, demoCode := some genCode },
          setOtp otp (normalizeUS phone) genCode now)) := by
  refine ⟨?_, ?_, ?_⟩
  · intro hfind
    simp only [requestCode]
    rw [if_neg hnorm, hfind]
  · intro m hfind hst
    simp only [requestCode]
    rw [if_neg hnorm, hfind]
    dsimp only
    rw [if_pos hst]
  · intro m hfind hst hfail
    simp only [requestCode]
    rw [if_neg hnorm, hfind]
    dsimp only
    rw [if_neg (fun hc => hc hst)]
    have hff : (cfg && sok) = false := by
      rcases hfail with h | h <;> simp [h]
    rw [if_neg (by simp [hff])]

/-- C4 witness: unknown, pending and approved members at a concrete phone. -/
theorem requestCode_errors_and_fallback_witness :
    requestCode [] [] ("5551234567") 0 ("123456") true true =
      .error .notRegistered ∧
    requestCode [mPending] [] ("555 123 4568") 0 ("123456") true true =
      .error (.notApproved ("pending")) ∧
    requestCode [mApproved] [] ("5551234567") 0 ("123456") false true =
      .ok ({ sent := false, demoCode := some ("123456") },
        setOtp [] (normalizeUS ("5551234567")) ("123456") 0) := by
  have h1 := requestCode_errors_and_fallback [] [] ("5551234567") 0 ("123456")
    true true (by decide)
  have h2 := requestCode_errors_and_fallback [mPending] [] ("555 123 4568") 0
    ("123456") true true (by decide)
  have h3 := requestCode_errors_and_fallback [mApproved] [] ("5551234567") 0
    ("123456") false true (by decide)
  exact ⟨h1.1 (by decide), h2.2.1 mPending (by decide) (by decide),
    h3.2.2 mApproved (by decide) (by decide) (Or.inl rfl)⟩

/-- C6: a code issued by request-code (stored with a 10-minute expiry) is
rejected by verify-code with BadCredentials once more than 10 minutes have
passed, even when the submitted code matches the stored code exactly and the
member is still approved. -/
theorem otp_code_expires
    (members : List Member) (otp : OtpStore) (phone genCode newTok : String)
    (t0 now : Nat) (m : Member) (cfg sok : Bool)
    (hnorm : normalizeUS phone ≠ "")
    (hfind : members.find? (fun x => x.phone == normalizeUS phone) = some m)
    (happ : m.status = "approved") (hcode : genCode ≠ "")
    (hlate : t0 + 10 * 60 * 1000 < now) :
    (∃ r, requestCode members otp phone t0 genCode cfg sok =
      .ok (r, setOtp otp (normalizeUS phone) genCode t0)) ∧
    verifyCode members (setOtp otp (normalizeUS phone) genCode t0) phone
      genCode now newTok none = .error .badCredentials := by
  constructor
  · simp only [requestCode]
    rw [if_neg hnorm, hfind]
    dsimp only
    rw [if_neg (fun hc => hc happ)]
    cases h : (cfg && sok)
    · rw [if_neg (by simp [h])]
      exact ⟨_, rfl⟩
    · rw [if_pos (by simp [h])]
      exact ⟨_, rfl⟩
  · simp only [verifyCode]
    rw [if_neg (by simp [hnorm, hcode]), hfind]
    dsimp only
    rw [if_neg (fun hc => hc happ)]
    have hchk : checkOtp (setOtp otp (normalizeUS phone) genCode t0)
        (normalizeUS phone) genCode now =
        (false, setOtp otp (normalizeUS phone) genCode t0) := by
      simp only [checkOtp, otpGet_setOtp_self]
      rw [if_neg (by intro hc; omega)]
    rw [hchk]

/-- C6 witness: the code expires at a concrete late verification time. -/
theorem otp_code_expires_witness :
    (∃ r, requestCode [mApproved] [] ("5551234567") 0 ("123456") true true =
      .ok (r, setOtp [] (normalizeUS ("5551234567")) ("123456") 0)) ∧
    verifyCode [mApproved] (setOtp [] (normalizeUS ("5551234567")) ("123456") 0)
      ("5551234567") ("123456") 600001 ("tokA") none =
      .error .badCredentials :=
  otp_code_expires [mApproved] [] ("5551234567") ("123456") ("tokA") 0 600001
    mApproved true true (by decide) (by decide) (by decide) (by decide)
    (by decide)

/-- C2: for an approved member, request-code followed by verify-code with the
freshly issued code succeeds exactly once — the first verification returns a
token and deletes the OTP entry, and a second verify-code with the same phone
and code (at any later time, with any new token) fails with BadCredentials. -/
theorem otp_round_trip_one_time
    (members : List Member) (otp : OtpStore) (phone genCode tok1 : String)
    (t0 now : Nat) (m : Member) (cfg sok : Bool)
    (hnorm : normalizeUS phone ≠ "")
    (hfind : members.find? (fun x => x.phone == normalizeUS phone) = some m)
    (happ : m.status = "approved") (hcode : genCode ≠ "")
    (hfresh : now < t0 + 10 * 60 * 1000) :
    (∃ r, requestCode members otp phone t0 genCode cfg sok =
      .ok (r, setOtp otp (normalizeUS phone) genCode t0)) ∧
    verifyCode members (setOtp otp (normalizeUS phone) genCode t0) phone
        genCode now tok1 none =
      .ok ({ token := tok1, member := memberProjection m },
        updateFirst members (fun x => x.phone == normalizeUS phone)
          (fun x =>
            { x with
              sessionTokens := x.sessionTokens ++ [tok1],
              expoTokens := appendExpo x.expoTokens none }),
        otpDelete (setOtp otp (normalizeUS phone) genCode t0)
          (normalizeUS phone)) ∧
    otpGet (otpDelete (setOtp otp (normalizeUS phone) genCode t0)
      (normalizeUS phone)) (normalizeUS phone) = none ∧
    (∀ now2 tok2,
      verifyCode
        (updateFirst members (fun x => x.phone == normalizeUS phone)
          (fun x =>
            { x with
              sessionTokens := x.sessionTokens ++ [tok1],
              expoTokens := appendExpo x.expoTokens none }))
        (otpDelete (setOtp otp (normalizeUS phone) genCode t0)
          (normalizeUS phone))
        phone genCode now2 tok2 none = .error .badCredentials) := by
  refine ⟨?_, ?_, otpGet_otpDelete_self _ _, ?_⟩
  · simp only [requestCode]
    rw [if_neg hnorm, hfind]
    dsimp only
    rw [if_neg (fun hc => hc happ)]
    cases h : (cfg && sok)
    · rw [if_neg (by simp [h])]
      exact ⟨_, rfl⟩
    · rw [if_pos (by simp [h])]
      exact ⟨_, rfl⟩
  · simp only [verifyCode]
    rw [if_neg (by simp [hnorm, hcode]), hfind]
    dsimp only
    rw [if_neg (fun hc => hc happ)]
    have hchk : checkOtp (setOtp otp (normalizeUS phone) genCode t0)
        (normalizeUS phone) genCode now =
        (true, otpDelete (setOtp otp (normalizeUS phone) genCode t0)
          (normalizeUS phone)) := by
      simp [checkOtp, otpGet_setOtp_self, hfresh]
    rw [hchk]
  · intro now2 tok2
    have hfind2 : (updateFirst members (fun x => x.phone == normalizeUS phone)
        (fun x =>
          { x with
            sessionTokens := x.sessionTokens ++ [tok1],
            expoTokens := appendExpo x.expoTokens none })).find?
        (fun x => x.phone == normalizeUS phone) =
        some { m with
               sessionTokens := m.sessionTokens ++ [tok1],
               expoTokens := appendExpo m.expoTokens none } := by
      rw [find?_updateFirst members (fun x => x.phone == normalizeUS phone)
        (fun x =>
          { x with
            sessionTokens := x.sessionTokens ++ [tok1],
            expoTokens := appendExpo x.expoTokens none })
        (fun x h => h), hfind]
      rfl
    simp only [verifyCode]
    rw [if_neg (by simp [hnorm, hcode]), hfind2]
    dsimp only
    rw [if_neg (fun hc => hc happ)]
    have hchk2 : checkOtp (otpDelete (setOtp otp (normalizeUS phone) genCode t0)
        (normalizeUS phone)) (normalizeUS phone) genCode now2 =
        (false, otpDelete (setOtp otp (normalizeUS phone) genCode t0)
          (normalizeUS phone)) := by
      simp only [checkOtp, otpGet_otpDelete_self]
    rw [hchk2]

/-- C2 witness: the round trip at a concrete approved member. -/
theorem otp_round_trip_one_time_witness :
    (∃ r, requestCode [mApproved] [] ("5551234567") 0 ("123456") true true =
      .ok (r, setOtp [] (normalizeUS ("5551234567")) ("123456") 0)) ∧
    verifyCode [mApproved] (setOtp [] (normalizeUS ("5551234567")) ("123456") 0)
        ("5551234567") ("123456") 1 ("tokA") none =
      .ok ({ token := "tokA", member := memberProjection mApproved },
        updateFirst [mApproved] (fun x => x.phone == normalizeUS ("5551234567"))
          (fun x =>
            { x with
              sessionTokens := x.sessionTokens ++ [("tokA")],
              expoTokens := appendExpo x.expoTokens none }),
        otpDelete (setOtp [] (normalizeUS ("5551234567")) ("123456") 0)
          (normalizeUS ("5551234567"))) ∧
    verifyCode
        (updateFirst [mApproved] (fun x => x.phone == normalizeUS ("5551234567"))
          (fun x =>
            { x with
              sessionTokens := x.sessionTokens ++ [("tokA")],
              expoTokens := appendExpo x.expoTokens none }))
        (otpDelete (setOtp [] (normalizeUS ("5551234567")) ("123456") 0)
          (normalizeUS ("5551234567")))
        ("5551234567") ("123456") 2 ("tokB") none = .error .badCredentials := by
  have h := otp_round_trip_one_time [mApproved] [] ("5551234567") ("123456")
    ("tokA") 0 1 mApproved true true (by decide) (by decide) (by decide)
    (by decide) (by decide)
  exact ⟨h.1, h.2.1, h.2.2.2 2 ("tokB")⟩

/-- C5: registering a phone whose normalization already keys a member (for
instance immediately after a first register of the same normalized phone)
never creates a second member record: the second call succeeds, keeps the
member count unchanged, and only merges — `mergeOpt` fills name/email solely
when the stored field is empty and the new value non-empty, and `appendExpo`
appends the push token only when it is non-empty and not already present. -/
theorem register_idempotent_on_phone
    (members members1 : List Member) (p1 p2 : String)
    (n1 e1 t1 n2 e2 t2 : Option String) (id1 id2 st1 mid1 : String)
    (ts1 ts2 : Nat)
    (hnorm : normalizeUS p2 = normalizeUS p1) (hne : normalizeUS p1 ≠ "")
    (h1 : register members p1 n1 e1 t1 id1 ts1 = .ok (members1, st1, mid1)) :
    (∃ members2 st2 mid2,
      register members1 p2 n2 e2 t2 id2 ts2 = .ok (members2, st2, mid2) ∧
      members2.length = members1.length ∧
      members2 = updateFirst members1 (fun x => x.phone == normalizeUS p1)
        (fun x =>
          { x with
            name := mergeOpt x.name n2,
            email := mergeOpt x.email e2,
            expoTokens := appendExpo x.expoTokens t2 })) ∧
    (∀ old v, old ≠ "" → mergeOpt old (some v) = old) ∧
    (∀ v, v ≠ "" → mergeOpt ("") (some v) = v) ∧
    (∀ ts t, t ∈ ts → appendExpo ts (some t) = ts) ∧
    (∀ ts t, t ≠ "" → ¬ t ∈ ts → appendExpo ts (some t) = ts ++ [t]) := by
  have hex : ∃ m', members1.find? (fun x => x.phone == normalizeUS p1) = some m' := by
    revert h1
    simp only [register]
    rw [if_neg hne]
    cases hm : members.find? (fun x => x.phone == normalizeUS p1) with
    | none =>
      dsimp only
      intro h1
      simp only [Except.ok.injEq, Prod.mk.injEq] at h1
      rcases h1 with ⟨hmem, -⟩
      refine ⟨({ id := id1, phone := normalizeUS p1, name := n1.getD (""),
                 email := e1.getD (""), status := "pending", isAdmin := false,
                 expoTokens := appendExpo [] t1, sessionTokens := [],
                 createdAt := ts1 } : Member), ?_⟩
      rw [← hmem, List.find?_append, hm]
      simp [List.find?_cons]
    | some m0 =>
      dsimp only
      intro h1
      simp only [Except.ok.injEq, Prod.mk.injEq] at h1
      rcases h1 with ⟨hmem, -⟩
      refine ⟨({ m0 with
                 name := mergeOpt m0.name n1,
                 email := mergeOpt m0.email e1,
                 expoTokens := appendExpo m0.expoTokens t1 } : Member), ?_⟩
      rw [← hmem, find?_updateFirst members (fun x => x.phone == normalizeUS p1)
        (fun x =>
          { x with
            name := mergeOpt x.name n1,
            email := mergeOpt x.email e1,
            expoTokens := appendExpo x.expoTokens t1 })
        (fun x h => h), hm]
      rfl
  obtain ⟨m', hfind1⟩ := hex
  refine ⟨⟨updateFirst members1 (fun x => x.phone == normalizeUS p1)
      (fun x =>
        { x with
          name := mergeOpt x.name n2,
          email := mergeOpt x.email e2,
          expoTokens := appendExpo x.expoTokens t2 }),
    m'.status, m'.id, ?_, updateFirst_length _ _ _, rfl⟩, ?_, ?_, ?_, ?_⟩
  · simp only [register, hnorm]
    rw [if_neg hne, hfind1]
  · intro old v h
    simp [mergeOpt, h]
  · intro v h
    simp [mergeOpt, h]
  · intro ts t h
    simp [appendExpo, List.elem_iff, h]
  · intro ts t h hn
    simp [appendExpo, List.elem_iff, h, hn]

/-- C5 witness: two renderings of the same US number registered in turn. -/
theorem register_idempotent_on_phone_witness :
    ∃ members2 st2 mid2,
      register [mAnn] ("(555) 123-4567") none (some ("a@b.c")) (some ("tokP"))
        ("idB") 7 = .ok (members2, st2, mid2) ∧
      members2.length = List.length [mAnn] ∧
      members2 = updateFirst [mAnn]
        (fun x => x.phone == normalizeUS ("5551234567"))
        (fun x =>
          { x with
            name := mergeOpt x.name none,
            email := mergeOpt x.email (some ("a@b.c")),
            expoTokens := appendExpo x.expoTokens (some ("tokP")) }) := by
  have h := register_idempotent_on_phone [] [mAnn]
    ("5551234567") ("(555) 123-4567") (some ("Ann")) none none
    none (some ("a@b.c")) (some ("tokP")) ("idA") ("idB") ("pending") ("idA")
    0 7 (by decide) (by decide) (by decide)
  exact h.1

/-- A member reachable only through the JWT add-on: approved, no session
tokens. -/
def mEmailOnly : Member :=
  { id := "m2", phone := "", name := "", email := "e@x", status := "approved",
    isAdmin := false, expoTokens := [], sessionTokens := [], createdAt := 0 }

/-- A JWT verifier accepting the single add-on token `h.p.s` (standing for a
token signed with the server's JWT secret for the add-on member). -/
def vAccept : String → Option JwtClaims :=
  fun t => if t = ("h.p.s") then some { sub := "m2", email := "e@x" } else none

theorem token_cleared_updateFirst
    (l : List Member) (token mid : String)
    (huniq : ∀ x ∈ l, token ∈ x.sessionTokens → x.id = mid)
    (hid : (l.filter (fun x => x.id == mid)).length ≤ 1) :
    ∀ x ∈ updateFirst l (fun y => y.id == mid)
        (fun y => { y with sessionTokens :=
          y.sessionTokens.filter (fun t => t != token) }),
      token ∉ x.sessionTokens := by
  induction l with
  | nil => intro x hx; simp [updateFirst] at hx
  | cons h rest ih =>
    intro x hx
    cases hp : (h.id == mid) with
    | true =>
      rw [updateFirst, if_pos hp] at hx
      rcases List.mem_cons.mp hx with rfl | hxr
      · intro hcon
        rcases List.mem_filter.mp hcon with ⟨-, hbad⟩
        simp at hbad
      · intro hcon
        have hxid : x.id = mid := huniq x (List.mem_cons_of_mem h hxr) hcon
        have hxin : x ∈ rest.filter (fun y => y.id == mid) :=
          List.mem_filter.mpr ⟨hxr, by simp [hxid]⟩
        have h1 : 1 ≤ (rest.filter (fun y => y.id == mid)).length :=
          List.length_pos.mpr (List.ne_nil_of_mem hxin)
        rw [List.filter_cons, if_pos hp] at hid
        simp only [List.length_cons] at hid
        omega
    | false =>
      rw [updateFirst, if_neg (by simp [hp])] at hx
      rcases List.mem_cons.mp hx with rfl | hxr
      · intro hcon
        have hxid := huniq x (List.mem_cons_self x rest) hcon
        simp [hxid] at hp
      · refine ih (fun y hy hc => huniq y (List.mem_cons_of_mem h hy) hc) ?_ x hxr
        rwa [List.filter_cons, if_neg (by simp [hp])] at hid

theorem demoted_blocks_tokens
    (l : List Member) (token mid st : String) (hst : st ≠ "approved")
    (huniq : ∀ x ∈ l, token ∈ x.sessionTokens → x.id = mid)
    (hid : (l.filter (fun x => x.id == mid)).length ≤ 1) :
    ∀ x ∈ updateFirst l (fun y => y.id == mid)
        (fun y => { y with status := st }),
      token ∈ x.sessionTokens → x.status ≠ "approved" := by
  induction l with
  | nil => intro x hx; simp [updateFirst] at hx
  | cons h rest ih =>
    intro x hx
    cases hp : (h.id == mid) with
    | true =>
      rw [updateFirst, if_pos hp] at hx
      rcases List.mem_cons.mp hx with rfl | hxr
      · intro _
        exact hst
      · intro hcon
        have hxid : x.id = mid := huniq x (List.mem_cons_of_mem h hxr) hcon
        have hxin : x ∈ rest.filter (fun y => y.id == mid) :=
          List.mem_filter.mpr ⟨hxr, by simp [hxid]⟩
        have h1 : 1 ≤ (rest.filter (fun y => y.id == mid)).length :=
          List.length_pos.mpr (List.ne_nil_of_mem hxin)
        rw [List.filter_cons, if_pos hp] at hid
        simp only [List.length_cons] at hid
        exfalso
        omega
    | false =>
      rw [updateFirst, if_neg (by simp [hp])] at hx
      rcases List.mem_cons.mp hx with rfl | hxr
      · intro hcon
        have hxid := huniq x (List.mem_cons_self x rest) hcon
        simp [hxid] at hp
      · refine ih (fun y hy hc => huniq y (List.mem_cons_of_mem h hy) hc) ?_ x hxr
        rwa [List.filter_cons, if_neg (by simp [hp])] at hid

theorem memberByToken_none_of_no_holder
    (verify : String → Option JwtClaims) (l : List Member) (token : String)
    (hne : token ≠ "") (hdot : dotCount token ≠ 2)
    (h : ∀ x ∈ l, token ∈ x.sessionTokens → x.status ≠ "approved") :
    memberByToken verify l token = none := by
  have hjwt : jwtMemberLookup verify l token = none := by
    simp [jwtMemberLookup, decodeJwtIfPresent, hne, hdot]
  unfold memberByToken
  cases hf : l.find? (fun m => m.sessionTokens.contains token) with
  | none => exact hjwt
  | some m1 =>
    dsimp only
    have hc : m1.sessionTokens.contains token = true :=
      @List.find?_some Member (fun m => m.sessionTokens.contains token) m1 l hf
    rw [if_neg (h m1 (List.mem_of_find?_eq_some hf)
      (List.mem_of_elem_eq_true hc))]
    exact hjwt

/-- C3 counterexample: `memberByToken` also resolves add-on JWTs — a token
contained in no member's `sessionTokens` still resolves to an approved member
through `decodeJwtIfPresent`, so for JWT-shaped tokens the claim's "returns
null otherwise" fails. -/
theorem memberByToken_jwt_cex :
    [mEmailOnly].find? (fun x => x.sessionTokens.contains ("h.p.s")) = none ∧
    memberByToken vAccept [mEmailOnly] ("h.p.s") = some mEmailOnly := by
  decide

/-- C3 (amended): for every token that is not JWT-shaped (not exactly three
dot-separated parts — in particular every opaque session token minted by the
OTP flow), `memberByToken` returns the member whose `sessionTokens` contains
the token only when that member is approved and returns null otherwise; after
logout the token resolves to null, and after an admin sets the owner's status
away from approved every such outstanding token is rejected without any
explicit revocation event.  (For JWT-shaped tokens the add-on fallback can
resolve members not holding the token, so the unrestricted claim fails.) -/
theorem resolveSession_requires_approved
    (verify : String → Option JwtClaims) (members : List Member) (token : String)
    (hne : token ≠ "") (hdot : dotCount token ≠ 2) :
    (∀ m, memberByToken verify members token = some m →
      token ∈ m.sessionTokens ∧ m.status = "approved") ∧
    ((∀ x ∈ members, token ∈ x.sessionTokens → x.status ≠ "approved") →
      memberByToken verify members token = none) ∧
    (∀ m members2,
      members.find? (fun x => x.sessionTokens.contains token) = some m →
      m.status = "approved" →
      (∀ x ∈ members, token ∈ x.sessionTokens → x.id = m.id) →
      (members.filter (fun x => x.id == m.id)).length ≤ 1 →
      logout verify members token = .ok members2 →
      memberByToken verify members2 token = none) ∧
    (∀ mid st members2,
      st ≠ "approved" →
      (∀ x ∈ members, token ∈ x.sessionTokens → x.id = mid) →
      (members.filter (fun x => x.id == mid)).length ≤ 1 →
      setStatus members mid st = some members2 →
      memberByToken verify members2 token = none) := by
  have hjwt : jwtMemberLookup verify members token = none := by
    simp [jwtMemberLookup, decodeJwtIfPresent, hne, hdot]
  refine ⟨?_, memberByToken_none_of_no_holder verify members token hne hdot,
    ?_, ?_⟩
  · intro m hm
    unfold memberByToken at hm
    cases hf : members.find? (fun x => x.sessionTokens.contains token) with
    | none =>
      rw [hf] at hm
      dsimp only at hm
      rw [hjwt] at hm
      exact Option.noConfusion hm
    | some m1 =>
      rw [hf] at hm
      dsimp only at hm
      by_cases hs : m1.status = "approved"
      · rw [if_pos hs] at hm
        obtain rfl : m1 = m := Option.some.inj hm
        have hc : m1.sessionTokens.contains token = true :=
          @List.find?_some Member (fun x => x.sessionTokens.contains token)
            m1 members hf
        exact ⟨List.mem_of_elem_eq_true hc, hs⟩
      · rw [if_neg hs, hjwt] at hm
        exact Option.noConfusion hm
  · intro m members2 hfind happ huniq hid hlog
    have hmb : memberByToken verify members token = some m := by
      unfold memberByToken
      rw [hfind]
      dsimp only
      rw [if_pos happ]
    unfold logout at hlog
    rw [if_neg hne, hmb] at hlog
    dsimp only at hlog
    have h2 := Except.ok.inj hlog
    rw [← h2]
    refine memberByToken_none_of_no_holder verify _ token hne hdot ?_
    intro x hx htok
    exact absurd htok (token_cleared_updateFirst members token m.id huniq hid x hx)
  · intro mid st members2 hst huniq hid hset
    unfold setStatus at hset
    cases hf : members.find? (fun x => x.id == mid) with
    | none =>
      rw [hf] at hset
      exact Option.noConfusion hset
    | some m0 =>
      rw [hf] at hset
      dsimp only at hset
      have h2 := Option.some.inj hset
      rw [← h2]
      exact memberByToken_none_of_no_holder verify _ token hne hdot
        (demoted_blocks_tokens members token mid st hst huniq hid)

/-- C3 witness: a held session token resolves while approved, stops resolving
after demotion, and stops resolving after logout. -/
theorem resolveSession_requires_approved_witness :
    (("t1") ∈ mApproved.sessionTokens ∧ mApproved.status = "approved") ∧
    memberByToken vNone [{ mApproved with status := "rejected" }] ("t1")
      = none ∧
    memberByToken vNone [{ mApproved with sessionTokens := [] }] ("t1")
      = none := by
  have h := resolveSession_requires_approved vNone [mApproved] ("t1")
    (by decide) (by decide)
  refine ⟨h.1 mApproved (by decide), ?_, ?_⟩
  · exact h.2.2.2 ("m1") ("rejected") [{ mApproved with status := "rejected" }]
      (by decide) (by decide) (by decide) (by decide)
  · exact h.2.2.1 mApproved [{ mApproved with sessionTokens := [] }]
      (by decide) (by decide) (by decide) (by decide) (by decide)

/-- C8 counterexample: after a successful logout the same token no longer
authenticates, so the second logout call is rejected with 401 Unauthorized by
requireAuth instead of returning ok. -/
theorem logout_not_idempotent_cex :
    logout vNone [mApproved] ("t1") =
      .ok [{ mApproved with sessionTokens := [] }] ∧
    logout vNone [{ mApproved with sessionTokens := [] }] ("t1") =
      .error .unauthorized ∧
    (logout vNone [{ mApproved with sessionTokens := [] }] ("t1")).toOption
      = none := by
  decide

/-- C8 (amended): logout removes the bearer token from its owner's
`sessionTokens` and returns ok, and the resulting state holds the token
nowhere, so repeating the operation cannot change state further; but a second
logout call with the same token is rejected by requireAuth with 401 invalid
session rather than returning ok. -/
theorem logout_second_call_unauthorized
    (verify : String → Option JwtClaims) (members : List Member)
    (token : String) (m : Member)
    (hne : token ≠ "") (hdot : dotCount token ≠ 2)
    (hfind : members.find? (fun x => x.sessionTokens.contains token) = some m)
    (happ : m.status = "approved")
    (huniq : ∀ x ∈ members, token ∈ x.sessionTokens → x.id = m.id)
    (hid : (members.filter (fun x => x.id == m.id)).length ≤ 1) :
    logout verify members token =
      .ok (updateFirst members (fun x => x.id == m.id)
        (fun x => { x with sessionTokens :=
          x.sessionTokens.filter (fun t => t != token) })) ∧
    (∀ x ∈ updateFirst members (fun x => x.id == m.id)
        (fun x => { x with sessionTokens :=
          x.sessionTokens.filter (fun t => t != token) }),
      token ∉ x.sessionTokens) ∧
    logout verify
      (updateFirst members (fun x => x.id == m.id)
        (fun x => { x with sessionTokens :=
          x.sessionTokens.filter (fun t => t != token) }))
      token = .error .unauthorized := by
  have hmb : memberByToken verify members token = some m := by
    unfold memberByToken
    rw [hfind]
    dsimp only
    rw [if_pos happ]
  have hclear := token_cleared_updateFirst members token m.id huniq hid
  refine ⟨?_, hclear, ?_⟩
  · unfold logout
    rw [if_neg hne, hmb]
  · unfold logout
    rw [if_neg hne, memberByToken_none_of_no_holder verify _ token hne hdot
      (fun x hx htok => absurd htok (hclear x hx))]

/-- C8 witness: the concrete two-logout run. -/
theorem logout_second_call_unauthorized_witness :
    logout vNone [mApproved] ("t1") =
      .ok (updateFirst [mApproved] (fun x => x.id == mApproved.id)
        (fun x => { x with sessionTokens :=
          x.sessionTokens.filter (fun t => t != ("t1")) })) ∧
    logout vNone
      (updateFirst [mApproved] (fun x => x.id == mApproved.id)
        (fun x => { x with sessionTokens :=
          x.sessionTokens.filter (fun t => t != ("t1")) }))
      ("t1") = .error .unauthorized := by
  have h := logout_second_call_unauthorized vNone [mApproved] ("t1") mApproved
    (by decide) (by decide) (by decide) (by decide) (by decide) (by decide)
  exact ⟨h.1, h.2.2⟩

end SnootClub
